import Mathlib

/-!
Verification of the Speech Playback Controller ("voice reader") of the
AI Book Summarizer web application.  The definitions below are a shallow
embedding of the JavaScript `VoiceReader` class and its helpers:
pure string helpers become Lean functions on `List Char`, the mutable
controller/engine state becomes an explicit `World` record threaded through
the operations, and the asynchronous engine callbacks become functions from
`World` to `World`.  JavaScript numbers are modelled as exact rationals
together with an explicit `nan` / infinity marker, which is adequate for the
properties considered here (zero tests, default-vs-parsed comparisons).
-/

namespace VoiceApp

/-- JavaScript `\s` (also used by `String.prototype.trim`): ASCII whitespace,
NBSP, and the Unicode space separators recognised by ECMAScript regexps. -/
def isJsWhitespace (c : Char) : Bool :=
  decide (c.toNat = 9 ∨ c.toNat = 10 ∨ c.toNat = 11 ∨ c.toNat = 12 ∨ c.toNat = 13 ∨
    c.toNat = 32 ∨ c.toNat = 0xa0 ∨ c.toNat = 0x1680 ∨
    (0x2000 ≤ c.toNat ∧ c.toNat ≤ 0x200a) ∨
    c.toNat = 0x2028 ∨ c.toNat = 0x2029 ∨ c.toNat = 0x202f ∨
    c.toNat = 0x205f ∨ c.toNat = 0x3000 ∨ c.toNat = 0xfeff)

/-- JavaScript `\w`: ASCII letters, digits, underscore. -/
def isWordChar (c : Char) : Bool :=
  decide ((97 ≤ c.toNat ∧ c.toNat ≤ 122) ∨ (65 ≤ c.toNat ∧ c.toNat ≤ 90) ∨
    (48 ≤ c.toNat ∧ c.toNat ≤ 57) ∨ c.toNat = 95)

/-- The Devanagari block `ऀ-ॿ` used by the sanitizer's allowlist
and by `isHindiText`. -/
def isDevanagari (c : Char) : Bool :=
  decide (0x900 ≤ c.toNat ∧ c.toNat ≤ 0x97F)

/-- The fixed punctuation allowlist of `cleanText`:
period comma bang question semicolon colon parens hyphen double-quote
apostrophe (codepoints 46 44 33 63 59 58 40 41 45 34 39). -/
def isAllowedPunct (c : Char) : Bool :=
  decide (c.toNat = 46 ∨ c.toNat = 44 ∨ c.toNat = 33 ∨ c.toNat = 63 ∨
    c.toNat = 59 ∨ c.toNat = 58 ∨ c.toNat = 40 ∨ c.toNat = 41 ∨
    c.toNat = 45 ∨ c.toNat = 34 ∨ c.toNat = 39)

/-- A character kept by the final allowlist filter of `cleanText`
(the complement of the negated character class in the source regexp:
word characters, whitespace, the Devanagari block, allowed punctuation). -/
def keepChar (c : Char) : Bool :=
  isWordChar c || isJsWhitespace c || isDevanagari c || isAllowedPunct c

/-- Fueled worker for `stripTags`; the fuel is an upper bound on the input
length, making the recursion structural (hence kernel-reducible). -/
def stripTagsAux : Nat → List Char → List Char
  | _, [] => []
  | 0, l => l
  | fuel + 1, c :: rest =>
    if c = '<' && rest.contains '>' then
      stripTagsAux fuel ((rest.dropWhile (fun d => d != '>')).drop 1)
    else
      c :: stripTagsAux fuel rest

/-- Semantics of `.replace(/<[^>]*>/g, '')`: delete every maximal `<...>` region; a `<`
with no later `>` is kept verbatim, exactly as the regexp leaves it. -/
def stripTags (l : List Char) : List Char :=
  stripTagsAux l.length l

/-- Fueled worker for `replaceAll`. -/
def replaceAllAux (pat rep : List Char) : Nat → List Char → List Char
  | _, [] => []
  | 0, l => l
  | fuel + 1, c :: rest =>
    if pat.isPrefixOf (c :: rest) && !pat.isEmpty then
      rep ++ replaceAllAux pat rep fuel ((c :: rest).drop pat.length)
    else
      c :: replaceAllAux pat rep fuel rest

/-- Global left-to-right non-overlapping replacement, the semantics of
`.replace(/pat/g, rep)` for a literal pattern. -/
def replaceAll (pat rep l : List Char) : List Char :=
  replaceAllAux pat rep l.length l

/-- Map every JS-whitespace character to a plain space (first half of
`.replace(/\s+/g, ' ')`). -/
def wsToSpace (c : Char) : Char :=
  if isJsWhitespace c then ' ' else c

/-- Collapse adjacent duplicate spaces (second half of
`.replace(/\s+/g, ' ')`). -/
def squeezeSpaces : List Char → List Char
  | [] => []
  | [c] => [c]
  | a :: b :: rest =>
    if a = ' ' && b = ' ' then squeezeSpaces (b :: rest)
    else a :: squeezeSpaces (b :: rest)

/-- Semantics of `.replace(/\s+/g, ' ')`: every maximal whitespace run becomes one space. -/
def collapseWs (l : List Char) : List Char :=
  squeezeSpaces (l.map wsToSpace)

/-- Model of `String.prototype.trim` on a character list. -/
def trimChars (l : List Char) : List Char :=
  ((l.dropWhile isJsWhitespace).reverse.dropWhile isJsWhitespace).reverse

/-- Model of `VoiceReader.cleanText`: strip tags, decode the five HTML entities,
collapse whitespace, drop characters outside the allowlist, trim. -/
def cleanText (text : String) : String :=
  let t1 := stripTags text.data
  let t2 := replaceAll "&nbsp;".data " ".data t1
  let t3 := replaceAll "&amp;".data "&".data t2
  let t4 := replaceAll "&lt;".data "<".data t3
  let t5 := replaceAll "&gt;".data ">".data t4
  let t6 := replaceAll "&quot;".data "\"".data t5
  let t7 := replaceAll "&#39;".data "\x27".data t6
  let t8 := collapseWs t7
  let t9 := t8.filter keepChar
  String.mk (trimChars t9)

/-- Model of `text.trim()` as used by the guard in `VoiceReader.speak`. -/
def jsTrim (s : String) : String :=
  String.mk (trimChars s.data)

/-- Model of `VoiceReader.isHindiText`: true iff the text contains a Devanagari
codepoint (the regexp `/[ऀ-ॿ]/`). -/
def isHindiText (s : String) : Bool :=
  s.data.any isDevanagari

/-- A JavaScript number, modelled exactly: `nan`, signed infinity, or a
rational value. -/
inductive JNum where
  | nan : JNum
  | inf : Bool → JNum
  | val : ℚ → JNum
deriving DecidableEq

/-- Truthiness test for a JS number in an option slot: `undefined`, `NaN`
and `0` are falsy (the `options.rate || this.settings.rate` idiom). -/
def jsOr (o : Option JNum) (d : JNum) : JNum :=
  match o with
  | none => d
  | some JNum.nan => d
  | some (JNum.inf b) => JNum.inf b
  | some (JNum.val q) => if q = 0 then d else JNum.val q

/-- ASCII digit test. -/
def isDigitChar (c : Char) : Bool :=
  decide (48 ≤ c.toNat ∧ c.toNat ≤ 57)

/-- Value of a digit string, most significant first. -/
def digitsToNat (l : List Char) : Nat :=
  l.foldl (fun acc c => acc * 10 + (c.toNat - 48)) 0

/-- JavaScript `parseFloat`: skip leading whitespace, optional sign,
`Infinity`, else a decimal mantissa with optional fractional part and
optional exponent; trailing garbage is ignored; no digits at all gives
`NaN`. -/
def parseFloatJs (s : String) : JNum :=
  let l := s.data.dropWhile isJsWhitespace
  let signNeg : Bool := match l with
    | c :: _ => c = '-'
    | [] => false
  let l1 : List Char := match l with
    | c :: r => if c = '-' || c = '+' then r else l
    | [] => []
  if ("Infinity".data).isPrefixOf l1 then JNum.inf signNeg
  else
    let intDs := l1.takeWhile isDigitChar
    let rest := l1.drop intDs.length
    let fracDs : List Char := match rest with
      | c :: r => if c = '.' then r.takeWhile isDigitChar else []
      | [] => []
    let rest2 : List Char := match rest with
      | c :: r => if c = '.' then r.drop (r.takeWhile isDigitChar).length else rest
      | [] => []
    if intDs.isEmpty && fracDs.isEmpty then JNum.nan
    else
      let mant : ℚ := (digitsToNat intDs : ℚ) +
        (digitsToNat fracDs : ℚ) / ((10 : ℚ) ^ fracDs.length)
      let e : ℤ := match rest2 with
        | c :: r =>
          if c = 'e' || c = 'E' then
            let eNeg : Bool := match r with
              | d :: _ => d = '-'
              | [] => false
            let r1 : List Char := match r with
              | d :: rr => if d = '-' || d = '+' then rr else r
              | [] => []
            let eDs := r1.takeWhile isDigitChar
            if eDs.isEmpty then 0
            else if eNeg then -(digitsToNat eDs : ℤ) else (digitsToNat eDs : ℤ)
          else 0
        | [] => 0
      JNum.val ((if signNeg then -mant else mant) * (10 : ℚ) ^ e)

/-- The three persisted numeric preferences of the voice reader. -/
structure Settings where
  rate : JNum
  pitch : JNum
  volume : JNum
deriving DecidableEq

/-- The constructor defaults: rate 0.8, pitch 1, volume 0.9. -/
def defaultSettings : Settings :=
  { rate := JNum.val (4 / 5), pitch := JNum.val 1, volume := JNum.val (9 / 10) }

/-- One field of `VoiceReader.loadSavedSettings`: a missing or empty stored
string (falsy) keeps the current value, anything else is given to
`parseFloat` unconditionally. -/
def loadField (stored : Option String) (cur : JNum) : JNum :=
  match stored with
  | none => cur
  | some s => if s = "" then cur else parseFloatJs s

/-- Model of `VoiceReader.loadSavedSettings`, with the persisted store contents
passed explicitly (`voiceRate` / `voicePitch` / `voiceVolume` keys). -/
def loadSavedSettings (rateS pitchS volS : Option String) (s : Settings) : Settings :=
  { rate := loadField rateS s.rate
    pitch := loadField pitchS s.pitch
    volume := loadField volS s.volume }

/-- Model of `loadAutoReadSetting`: the persisted flag is on iff the stored string is
exactly `true`; anything missing or malformed reads as `false`. -/
def loadAutoRead (stored : Option String) : Bool :=
  stored = some "true"

/-- An engine-reported voice: name and BCP-47 language tag. -/
structure Voice where
  name : String
  lang : String
deriving DecidableEq

/-- Substring occurrence test on character lists: some suffix of the
haystack starts with the pattern. -/
def hasSubList : List Char → List Char → Bool
  | [], pat => pat.isEmpty
  | c :: rest, pat => pat.isPrefixOf (c :: rest) || hasSubList rest pat

/-- Model of `hay.includes(pat)` on JavaScript strings. -/
def strIncludes (hay pat : String) : Bool :=
  hasSubList hay.data pat.data

/-- The predicate of `initializeVoices`' search: a catalog voice matches a
preference entry if its name or language tag contains or equals it. -/
def voiceMatches (v : Voice) (preferred : String) : Bool :=
  strIncludes v.name preferred || v.name = preferred ||
  strIncludes v.lang preferred || v.lang = preferred

/-- The Hindi half of the ranked preference list. -/
def hindiPreferred : List String :=
  ["Microsoft Heera - Hindi (India)", "Google हिन्दी", "Hindi (India)", "hi-IN"]

/-- The English half of the ranked preference list. -/
def englishPreferred : List String :=
  ["Microsoft Zira - English (United States)", "Google US English",
   "Microsoft David - English (United States)", "English (United States)", "en-US"]

/-- The full ranked preference list of `initializeVoices`, Hindi entries
first. -/
def preferredVoices : List String :=
  hindiPreferred ++ englishPreferred

/-- Walk the preference list in order; for each entry return the first
catalog voice matching it (`this.voices.find(...)`), stopping at the first
preference entry that matches anything. -/
def findPreferred : List String → List Voice → Option Voice
  | [], _ => none
  | p :: ps, voices =>
    match voices.find? (fun v => voiceMatches v p) with
    | some v => some v
    | none => findPreferred ps voices

/-- The heuristic selection pass of `initializeVoices`: first preference
entry with a match wins. -/
def selectPreferred (voices : List Voice) : Option Voice :=
  findPreferred preferredVoices voices

/-- Model of `VoiceReader.initializeVoices`, with the engine catalog, the previously
selected voice and the persisted `selectedVoiceIndex` passed explicitly.
An empty catalog returns early; otherwise the heuristic choice (kept if one
was already made), then the index-0 fallback, then the persisted index
override when it is still valid against the catalog. -/
def initVoices (voices : List Voice) (prior : Option Voice)
    (savedIdx : Option Nat) : Option Voice :=
  if voices.isEmpty then prior
  else
    let afterPref : Option Voice :=
      match prior with
      | some v => some v
      | none => selectPreferred voices
    let afterFallback : Option Voice :=
      match afterPref with
      | some v => some v
      | none => voices.head?
    match savedIdx with
    | some i =>
      match voices[i]? with
      | some v => some v
      | none => afterFallback
    | none => afterFallback

/-- The user-facing warning of `speak` when there is no text to read. -/
def msgNoText : String := "कोई टेक्स्ट नहीं मिला पढ़ने के लिए।"

/-- The generic engine-error fallback message. -/
def msgErrGeneric : String := "वॉइस में समस्या हुई।"

/-- The network-specific engine-error message. -/
def msgErrNetwork : String := "नेटवर्क की समस्या। कनेक्शन चेक करें।"

/-- The permission-denied engine-error message. -/
def msgErrNotAllowed : String := "ब्राउज़र में वॉइस की अनुमति नहीं है।"

/-- The unsupported-language engine-error message. -/
def msgErrLang : String := "यह भाषा सपोर्ट नहीं है।"

/-- The retry suffix appended to every engine-error message. -/
def msgErrSuffix : String := " कृपया फिर से कोशिश करें।"

/-- The notification shown by the `onend` handler. -/
def msgFinished : String := "पढ़ना समाप्त हुआ। ✅"

/-- The error classification of the `utterance.onerror` handler. -/
def classifyError (kind : String) : String :=
  if kind = "network" then msgErrNetwork
  else if kind = "not-allowed" then msgErrNotAllowed
  else if kind = "language-not-supported" then msgErrLang
  else msgErrGeneric

/-- UI affordance states passed to `updateUI`. -/
inductive UIState where
  | playing : UIState
  | paused : UIState
  | stopped : UIState
deriving DecidableEq

/-- A configured `SpeechSynthesisUtterance`: identity, cleaned text and the
playback parameters set by `speak`. -/
structure Utt where
  id : Nat
  text : String
  rate : JNum
  pitch : JNum
  volume : JNum
  lang : String
deriving DecidableEq

/-- The engine half of the state: the `speechSynthesis` utterance queue
(ids, head first) and its paused flag.  `speaking` is true while any
utterance is queued. -/
structure Engine where
  queue : List Nat
  paused : Bool
deriving DecidableEq

/-- Model of `synth.speaking`. -/
def Engine.speaking (e : Engine) : Bool :=
  !e.queue.isEmpty

/-- The mutable fields of the `VoiceReader` instance. -/
structure VRState where
  utterance : Option Utt
  isReading : Bool
  isPaused : Bool
  currentText : String
  settings : Settings
  selectedVoice : Option Voice
deriving DecidableEq

/-- The whole observable world: controller, engine, the log of cancelled
utterance ids, the UI transitions performed so far, the notifications shown
so far, and a fresh-id counter for utterances. -/
structure World where
  vr : VRState
  engine : Engine
  cancelled : List Nat
  uiLog : List UIState
  notes : List String
  nextId : Nat
deriving DecidableEq

/-- Model of `updateUI`: record a UI affordance transition. -/
def updateUI (s : UIState) (w : World) : World :=
  { w with uiLog := w.uiLog ++ [s] }

/-- Model of `showNotification`: record a user-facing message. -/
def notify (m : String) (w : World) : World :=
  { w with notes := w.notes ++ [m] }

/-- Model of `VoiceReader.stop`: only acts when the engine reports speaking or
paused; then `synth.cancel()` drops every queued utterance, both controller
flags clear, and the UI is set to stopped.  Returns whether it acted. -/
def stop (w : World) : World × Bool :=
  if w.engine.speaking || w.engine.paused then
    ({ w with
        engine := { queue := [], paused := false }
        cancelled := w.cancelled ++ w.engine.queue
        vr := { w.vr with isReading := false, isPaused := false }
        uiLog := w.uiLog ++ [UIState.stopped] }, true)
  else (w, false)

/-- Model of `VoiceReader.pause`: only acts when the engine is speaking and not yet
paused; then `synth.pause()` and, already at call time, the paused flag and
a UI transition. -/
def pause (w : World) : World × Bool :=
  if w.engine.speaking && !w.engine.paused then
    ({ w with
        engine := { w.engine with paused := true }
        vr := { w.vr with isPaused := true }
        uiLog := w.uiLog ++ [UIState.paused] }, true)
  else (w, false)

/-- Model of `VoiceReader.resume`: only acts when the engine is paused; then
`synth.resume()` and, already at call time, the cleared flag and a UI
transition. -/
def resume (w : World) : World × Bool :=
  if w.engine.paused then
    ({ w with
        engine := { w.engine with paused := false }
        vr := { w.vr with isPaused := false }
        uiLog := w.uiLog ++ [UIState.playing] }, true)
  else (w, false)

/-- Per-call playback options of `speak` (`undefined` fields are `none`). -/
structure SpeakOptions where
  rate : Option JNum
  pitch : Option JNum
  volume : Option JNum

/-- The empty options object `\x7b\x7d` of `speak(text)`. -/
def noOptions : SpeakOptions :=
  { rate := none, pitch := none, volume := none }

/-- Model of `VoiceReader.speak`: reject raw text that is empty after `trim` (warn,
no other change, return false); otherwise stop any current session, sanitize
the text, configure a fresh utterance (falsy per-call options fall back to
the stored settings; language from the selected voice, else by script
detection) and submit it to the engine queue. -/
def speak (text : String) (options : SpeakOptions) (w : World) : World × Bool :=
  if jsTrim text = "" then
    (notify msgNoText w, false)
  else
    let w1 := (stop w).1
    let cleaned := cleanText text
    let u : Utt :=
      { id := w1.nextId
        text := cleaned
        rate := jsOr options.rate w1.vr.settings.rate
        pitch := jsOr options.pitch w1.vr.settings.pitch
        volume := jsOr options.volume w1.vr.settings.volume
        lang :=
          match w1.vr.selectedVoice with
          | some v => v.lang
          | none => if isHindiText cleaned then "hi-IN" else "en-US" }
    let w2 : World :=
      { w1 with
          vr := { w1.vr with utterance := some u, currentText := cleaned }
          engine := { w1.engine with queue := w1.engine.queue ++ [u.id] }
          nextId := w1.nextId + 1 }
    (w2, true)

/-- The `utterance.onstart` handler. -/
def onStart (w : World) : World :=
  { w with
      vr := { w.vr with isReading := true, isPaused := false }
      uiLog := w.uiLog ++ [UIState.playing] }

/-- The `utterance.onend` handler. -/
def onEnd (w : World) : World :=
  { w with
      vr := { w.vr with isReading := false, isPaused := false }
      uiLog := w.uiLog ++ [UIState.stopped]
      notes := w.notes ++ [msgFinished] }

/-- The `utterance.onerror` handler: clear both flags, UI stopped, then one
notification whose text is the classified message plus the retry suffix. -/
def onError (kind : String) (w : World) : World :=
  { w with
      vr := { w.vr with isReading := false, isPaused := false }
      uiLog := w.uiLog ++ [UIState.stopped]
      notes := w.notes ++ [classifyError kind ++ msgErrSuffix] }

/-- The `utterance.onpause` handler. -/
def onPause (w : World) : World :=
  { w with
      vr := { w.vr with isPaused := true }
      uiLog := w.uiLog ++ [UIState.paused] }

/-- The `utterance.onresume` handler. -/
def onResume (w : World) : World :=
  { w with
      vr := { w.vr with isPaused := false }
      uiLog := w.uiLog ++ [UIState.playing] }

/-- The abstract controller state of the spec, read off the controller
flags. -/
inductive CState where
  | Idle : CState
  | Speaking : CState
  | Paused : CState
deriving DecidableEq

/-- Controller state: `Idle` unless reading, `Paused` when additionally the
paused flag is set. -/
def controllerState (w : World) : CState :=
  if w.vr.isReading then
    (if w.vr.isPaused then CState.Paused else CState.Speaking)
  else CState.Idle

/-- A quiescent world: nothing queued, nothing logged, default settings. -/
def initialWorld : World :=
  { vr :=
      { utterance := none
        isReading := false
        isPaused := false
        currentText := ""
        settings := defaultSettings
        selectedVoice := none }
    engine := { queue := [], paused := false }
    cancelled := []
    uiLog := []
    notes := []
    nextId := 0 }

/-- A world in the middle of speaking utterance 0, not paused. -/
def speakingWorld : World :=
  { initialWorld with
      vr := { initialWorld.vr with isReading := true }
      engine := { queue := [0], paused := false } }

/-- A world paused in the middle of utterance 0. -/
def pausedWorld : World :=
  { initialWorld with
      vr := { initialWorld.vr with isReading := true, isPaused := true }
      engine := { queue := [0], paused := true } }

/-- Members of `squeezeSpaces l` are members of `l`. -/
theorem mem_squeezeSpaces {c : Char} : ∀ {l : List Char}, c ∈ squeezeSpaces l → c ∈ l
  | [], h => by simp [squeezeSpaces] at h
  | [_], h => by simpa [squeezeSpaces] using h
  | a :: b :: rest, h => by
    by_cases hab : (a = ' ' && b = ' ') = true
    · exact List.mem_cons_of_mem _
        (mem_squeezeSpaces (by simpa [squeezeSpaces, hab] using h))
    · rcases (by simpa [squeezeSpaces, hab] using h : c = a ∨ c ∈ squeezeSpaces (b :: rest)) with
        h1 | h2
      · exact h1 ▸ List.mem_cons_self _ _
      · exact List.mem_cons_of_mem _ (mem_squeezeSpaces h2)

/-- After whitespace collapsing, the only whitespace character left is the
plain space. -/
theorem ws_mem_collapseWs {c : Char} {l : List Char} (h : c ∈ collapseWs l)
    (hws : isJsWhitespace c = true) : c = ' ' := by
  have h1 : c ∈ l.map wsToSpace := mem_squeezeSpaces h
  rcases List.mem_map.1 h1 with ⟨d, _, hd⟩
  by_cases hwd : isJsWhitespace d = true
  · rw [← hd]
    simp [wsToSpace, hwd]
  · have hdd : wsToSpace d = d := by simp [wsToSpace, hwd]
    rw [hdd] at hd
    subst hd
    exact absurd hws hwd

/-- Members of `trimChars l` are members of `l`. -/
theorem mem_of_mem_trimChars {c : Char} {l : List Char} (h : c ∈ trimChars l) : c ∈ l := by
  unfold trimChars at h
  have h1 := List.mem_reverse.1 h
  have h2 := List.Sublist.mem h1 (List.dropWhile_sublist _)
  have h3 := List.mem_reverse.1 h2
  exact List.Sublist.mem h3 (List.dropWhile_sublist _)

/-- C4: for every input string, every character of the sanitized output is
a word character, a Devanagari codepoint, one of the fixed punctuation
allowlist, or a plain space — in particular the markup delimiters never
survive — and `cleanText` is total by construction. -/
theorem cleanText_allowlist (s : String) (c : Char) (hc : c ∈ (cleanText s).data) :
    (isWordChar c = true ∨ isDevanagari c = true ∨ isAllowedPunct c = true ∨ c = ' ') ∧
    c ≠ '<' ∧ c ≠ '>' := by
  simp only [cleanText] at hc
  have h1 := mem_of_mem_trimChars hc
  have h2 := List.mem_filter.1 h1
  have hall : isWordChar c = true ∨ isDevanagari c = true ∨ isAllowedPunct c = true ∨
      c = ' ' := by
    have hkeep := h2.2
    simp only [keepChar, Bool.or_eq_true] at hkeep
    rcases hkeep with ((hw | hws) | hd) | hp
    · exact Or.inl hw
    · exact Or.inr (Or.inr (Or.inr (ws_mem_collapseWs h2.1 hws)))
    · exact Or.inr (Or.inl hd)
    · exact Or.inr (Or.inr (Or.inl hp))
  refine ⟨hall, ?_, ?_⟩ <;> rintro rfl <;> rcases hall with h | h | h | h <;> revert h <;> decide

/-- Witness for C4 at a concrete input. -/
theorem cleanText_allowlist_witness :
    'a' ∈ (cleanText "a<b>").data ∧
    ((isWordChar 'a' = true ∨ isDevanagari 'a' = true ∨ isAllowedPunct 'a' = true ∨
        'a' = ' ') ∧ 'a' ≠ '<' ∧ 'a' ≠ '>') :=
  ⟨by decide, cleanText_allowlist "a<b>" 'a' (by decide)⟩

/-- Shape of a successful `speak`: the engine queue afterwards holds exactly
the new utterance id, every previously queued id has moved to the cancelled
log, the id counter advanced, the stored settings are untouched, and the new
utterance is configured from the per-call options with the stored settings
as fallback. -/
theorem speak_success_shape (t : String) (o : SpeakOptions) (w : World)
    (h : jsTrim t ≠ "") :
    (speak t o w).1.engine.queue = [w.nextId] ∧
    (speak t o w).1.nextId = w.nextId + 1 ∧
    (speak t o w).1.cancelled = w.cancelled ++ w.engine.queue ∧
    (speak t o w).2 = true ∧
    (speak t o w).1.vr.settings = w.vr.settings ∧
    Option.map Utt.rate (speak t o w).1.vr.utterance =
      some (jsOr o.rate w.vr.settings.rate) ∧
    Option.map Utt.pitch (speak t o w).1.vr.utterance =
      some (jsOr o.pitch w.vr.settings.pitch) ∧
    Option.map Utt.volume (speak t o w).1.vr.utterance =
      some (jsOr o.volume w.vr.settings.volume) := by
  by_cases hs : (w.engine.speaking || w.engine.paused) = true
  · simp [speak, h, stop, hs]
  · have hq : w.engine.queue = [] := by
      have hsp : w.engine.speaking = false := by
        rcases Bool.or_eq_false_iff.1 (Bool.eq_false_iff.2 hs) with ⟨h1, _⟩
        exact h1
      simpa [Engine.speaking, List.isEmpty_iff] using hsp
    simp [speak, h, stop, hs, hq]

/-- C1: `start(A)` followed by `start(B)` leaves exactly one utterance in
flight, namely B's, with a fresh id, and A's utterance id has been moved to
the cancelled log; each single `speak` likewise leaves exactly one queued
utterance, so at most one logical session is ever in flight. -/
theorem start_supersedes (w : World) (A B : String) (oA oB : SpeakOptions)
    (hA : jsTrim A ≠ "") (hB : jsTrim B ≠ "") :
    (speak A oA w).1.engine.queue = [w.nextId] ∧
    (speak B oB (speak A oA w).1).1.engine.queue = [w.nextId + 1] ∧
    w.nextId + 1 ≠ w.nextId ∧
    w.nextId ∈ (speak B oB (speak A oA w).1).1.cancelled := by
  obtain ⟨hq1, hn1, _, _, _, _⟩ := speak_success_shape A oA w hA
  obtain ⟨hq2, _, hc2, _, _, _⟩ := speak_success_shape B oB (speak A oA w).1 hB
  refine ⟨hq1, ?_, by omega, ?_⟩
  · rw [hq2, hn1]
  · rw [hc2, hq1]
    simp

/-- Witness for C1 at concrete inputs. -/
theorem start_supersedes_witness :
    (speak "hello" noOptions initialWorld).1.engine.queue = [initialWorld.nextId] ∧
    (speak "world" noOptions
        (speak "hello" noOptions initialWorld).1).1.engine.queue =
      [initialWorld.nextId + 1] ∧
    initialWorld.nextId + 1 ≠ initialWorld.nextId ∧
    initialWorld.nextId ∈
      (speak "world" noOptions (speak "hello" noOptions initialWorld).1).1.cancelled :=
  start_supersedes initialWorld "hello" "world" noOptions noOptions
    (by decide) (by decide)

/-- C3 counterexample: the markup-only input has an empty sanitized form,
yet `speak` accepts it — it returns true and an utterance (with empty text)
is submitted to the engine, so the claimed rejection does not happen. -/
theorem speak_markup_only_submits :
    cleanText "<b></b>" = "" ∧
    (speak "<b></b>" noOptions initialWorld).2 = true ∧
    (speak "<b></b>" noOptions initialWorld).1.engine.queue = [0] ∧
    Option.map Utt.text (speak "<b></b>" noOptions initialWorld).1.vr.utterance =
      some "" := by
  refine ⟨by decide, by decide, by decide, ?_⟩
  decide

/-- C3 as amended: rejection keys on the raw text, not the sanitized text —
whenever the raw text trims to empty, `speak` reports the
nothing-to-read warning, changes nothing else, and submits nothing. -/
theorem speak_rejects_raw_empty (w : World) (o : SpeakOptions) (t : String)
    (h : jsTrim t = "") :
    speak t o w = ({ w with notes := w.notes ++ [msgNoText] }, false) := by
  simp [speak, h, notify]

/-- Witness for the amended C3 at concrete inputs. -/
theorem speak_rejects_raw_empty_witness :
    speak "   " noOptions initialWorld =
      ({ initialWorld with notes := initialWorld.notes ++ [msgNoText] }, false) :=
  speak_rejects_raw_empty initialWorld noOptions "   " (by decide)

/-- C5: `pause` is a complete no-op when the engine is not speaking,
`resume` is a complete no-op when the engine is not paused, and `stop` is a
complete no-op when the engine is neither speaking nor paused — no engine
call, no state change, no notification, returning false. -/
theorem controls_noop_when_precondition_false (w : World) :
    (w.engine.speaking = false → pause w = (w, false)) ∧
    (w.engine.paused = false → resume w = (w, false)) ∧
    (w.engine.speaking = false → w.engine.paused = false → stop w = (w, false)) := by
  refine ⟨fun h1 => ?_, fun h2 => ?_, fun h1 h2 => ?_⟩
  · simp [pause, h1]
  · simp [resume, h2]
  · simp [stop, h1, h2]

/-- Witness for C5 at the idle world. -/
theorem controls_noop_witness :
    pause initialWorld = (initialWorld, false) ∧
    resume initialWorld = (initialWorld, false) ∧
    stop initialWorld = (initialWorld, false) :=
  ⟨(controls_noop_when_precondition_false initialWorld).1 rfl,
   (controls_noop_when_precondition_false initialWorld).2.1 rfl,
   (controls_noop_when_precondition_false initialWorld).2.2 rfl rfl⟩

/-- C10: a falsy per-call option (absent, `NaN`, or `0`) for rate, pitch or
volume makes `speak` configure the utterance with the stored preference
value for that field, so no caller can request a zero value. -/
theorem speak_falsy_options_use_settings (w : World) (t : String) (o : SpeakOptions)
    (h : jsTrim t ≠ "") :
    (o.rate = none ∨ o.rate = some JNum.nan ∨ o.rate = some (JNum.val 0) →
      Option.map Utt.rate (speak t o w).1.vr.utterance = some w.vr.settings.rate) ∧
    (o.pitch = none ∨ o.pitch = some JNum.nan ∨ o.pitch = some (JNum.val 0) →
      Option.map Utt.pitch (speak t o w).1.vr.utterance = some w.vr.settings.pitch) ∧
    (o.volume = none ∨ o.volume = some JNum.nan ∨ o.volume = some (JNum.val 0) →
      Option.map Utt.volume (speak t o w).1.vr.utterance = some w.vr.settings.volume) := by
  obtain ⟨_, _, _, _, _, hr, hp, hv⟩ := speak_success_shape t o w h
  refine ⟨fun hf => ?_, fun hf => ?_, fun hf => ?_⟩
  · rw [hr]
    rcases hf with hf | hf | hf <;> simp [jsOr, hf]
  · rw [hp]
    rcases hf with hf | hf | hf <;> simp [jsOr, hf]
  · rw [hv]
    rcases hf with hf | hf | hf <;> simp [jsOr, hf]

/-- Witness for C10: a zero rate request at a concrete input falls back to
the stored 0.8-rate preference. -/
theorem speak_falsy_options_witness :
    Option.map Utt.rate
        (speak "hello" { rate := some (JNum.val 0), pitch := none, volume := none }
          initialWorld).1.vr.utterance =
      some initialWorld.vr.settings.rate :=
  (speak_falsy_options_use_settings initialWorld "hello"
      { rate := some (JNum.val 0), pitch := none, volume := none }
      (by decide)).1 (Or.inr (Or.inr rfl))

/-- C2 counterexample: with the engine speaking and not paused, the `pause`
call itself already performs a UI transition, before any engine callback;
likewise `resume` from the paused world.  This refutes the claim that the
UI is updated only when the engine callback fires. -/
theorem pause_updates_ui_at_call_time :
    speakingWorld.engine.speaking = true ∧
    speakingWorld.engine.paused = false ∧
    (pause speakingWorld).1.uiLog ≠ speakingWorld.uiLog ∧
    (pause speakingWorld).1.uiLog = [UIState.paused] ∧
    (resume pausedWorld).1.uiLog ≠ pausedWorld.uiLog ∧
    (resume pausedWorld).1.uiLog = [UIState.playing] := by
  refine ⟨rfl, rfl, by decide, by decide, by decide, by decide⟩

/-- C2 as amended: `pause` and `resume` update the paused flag and emit the
UI transition optimistically at call time (when their engine precondition
holds), and the engine's `onpause` / `onresume` callbacks emit the same UI
transition again when they fire. -/
theorem pause_resume_optimistic_ui (w : World) :
    (w.engine.speaking = true → w.engine.paused = false →
      (pause w).1.uiLog = w.uiLog ++ [UIState.paused] ∧
      (pause w).1.vr.isPaused = true) ∧
    (w.engine.paused = true →
      (resume w).1.uiLog = w.uiLog ++ [UIState.playing] ∧
      (resume w).1.vr.isPaused = false) ∧
    (onPause w).uiLog = w.uiLog ++ [UIState.paused] ∧
    (onResume w).uiLog = w.uiLog ++ [UIState.playing] := by
  refine ⟨fun h1 h2 => ?_, fun h3 => ?_, rfl, rfl⟩
  · constructor <;> simp [pause, h1, h2]
  · constructor <;> simp [resume, h3]

/-- Witness for the amended C2 at concrete worlds. -/
theorem pause_resume_optimistic_ui_witness :
    ((pause speakingWorld).1.uiLog = speakingWorld.uiLog ++ [UIState.paused] ∧
      (pause speakingWorld).1.vr.isPaused = true) ∧
    ((resume pausedWorld).1.uiLog = pausedWorld.uiLog ++ [UIState.playing] ∧
      (resume pausedWorld).1.vr.isPaused = false) :=
  ⟨(pause_resume_optimistic_ui speakingWorld).1 rfl rfl,
   (pause_resume_optimistic_ui pausedWorld).2.1 rfl⟩

/-- C7: a network engine error while the controller is speaking sends the
controller to Idle (both flags cleared, UI notified stopped) and surfaces
exactly one user message, the network-specific one, which differs from the
generic fallback message. -/
theorem network_error_goes_idle (w : World)
    (_h : controllerState w = CState.Speaking) :
    controllerState (onError "network" w) = CState.Idle ∧
    (onError "network" w).vr.isReading = false ∧
    (onError "network" w).vr.isPaused = false ∧
    (onError "network" w).uiLog = w.uiLog ++ [UIState.stopped] ∧
    (onError "network" w).notes = w.notes ++ [msgErrNetwork ++ msgErrSuffix] ∧
    msgErrNetwork ++ msgErrSuffix ≠ msgErrGeneric ++ msgErrSuffix := by
  refine ⟨?_, rfl, rfl, rfl, ?_, by decide⟩
  · simp [controllerState, onError]
  · simp [onError, classifyError]

/-- Witness for C7 at the concrete speaking world. -/
theorem network_error_goes_idle_witness :
    controllerState (onError "network" speakingWorld) = CState.Idle ∧
    (onError "network" speakingWorld).vr.isReading = false ∧
    (onError "network" speakingWorld).vr.isPaused = false ∧
    (onError "network" speakingWorld).uiLog = speakingWorld.uiLog ++ [UIState.stopped] ∧
    (onError "network" speakingWorld).notes =
      speakingWorld.notes ++ [msgErrNetwork ++ msgErrSuffix] ∧
    msgErrNetwork ++ msgErrSuffix ≠ msgErrGeneric ++ msgErrSuffix :=
  network_error_goes_idle speakingWorld (by decide)

/-- Walking a preference segment over a two-voice catalog (in either order):
if no entry of the segment matches the second voice and some entry matches
the first, the first voice is found, whatever comes later in the list. -/
theorem findPreferred_two_voice (l1 l2 : List String) (hv ev : Voice)
    (cat : List Voice) (hcat : cat = [hv, ev] ∨ cat = [ev, hv])
    (hev : ∀ p ∈ l1, voiceMatches ev p = false)
    (hhv : ∃ p ∈ l1, voiceMatches hv p = true) :
    findPreferred (l1 ++ l2) cat = some hv := by
  induction l1 with
  | nil => simp at hhv
  | cons p ps ih =>
    have hevp : voiceMatches ev p = false := hev p (List.mem_cons_self _ _)
    by_cases hm : voiceMatches hv p = true
    · rcases hcat with hc | hc <;> subst hc <;>
        simp [findPreferred, List.find?, hm, hevp]
    · have hm' : voiceMatches hv p = false := Bool.eq_false_iff.2 hm
      have hfind : cat.find? (fun v => voiceMatches v p) = none := by
        rcases hcat with hc | hc <;> subst hc <;>
          simp [List.find?, hm', hevp]
      have hstep : findPreferred ((p :: ps) ++ l2) cat = findPreferred (ps ++ l2) cat := by
        rw [List.cons_append]
        simp [findPreferred, hfind]
      rw [hstep]
      refine ih (fun q hq => hev q (List.mem_cons_of_mem _ hq)) ?_
      rcases hhv with ⟨q, hq, hmq⟩
      rcases List.mem_cons.1 hq with rfl | hq'
      · exact absurd hmq hm
      · exact ⟨q, hq', hmq⟩

/-- C6: over a catalog holding a voice tagged `hi-IN` and a voice tagged
`en-US` (in either order), where the English voice's name does not collide
with any Hindi preference entry, `selectPreferred` returns the Hindi voice
regardless of catalog order, because the preference list is walked in rank
order (Hindi entries first) and the first match wins. -/
theorem selectPreferred_prefers_hindi (hv ev : Voice) (cat : List Voice)
    (h1 : hv.lang = "hi-IN") (h2 : ev.lang = "en-US")
    (h3 : ∀ p ∈ hindiPreferred, strIncludes ev.name p = false ∧ ev.name ≠ p)
    (hcat : cat = [hv, ev] ∨ cat = [ev, hv]) :
    selectPreferred cat = some hv := by
  have hev : ∀ p ∈ hindiPreferred, voiceMatches ev p = false := by
    intro p hp
    obtain ⟨hn1, hn2⟩ := h3 p hp
    have hl : strIncludes ev.lang p = false ∧ ev.lang ≠ p := by
      rw [h2]
      fin_cases hp <;> exact ⟨by decide, by decide⟩
    simp [voiceMatches, hn1, hn2, hl.1, hl.2]
  have hhv : ∃ p ∈ hindiPreferred, voiceMatches hv p = true := by
    refine ⟨"hi-IN", by decide, ?_⟩
    have : strIncludes hv.lang "hi-IN" = true := by
      rw [h1]
      decide
    simp [voiceMatches, this]
  exact findPreferred_two_voice hindiPreferred englishPreferred hv ev cat hcat hev hhv

/-- Witness for C6 at a concrete catalog with the English voice first. -/
theorem selectPreferred_prefers_hindi_witness :
    selectPreferred [⟨"EnglishVoice", "en-US"⟩, ⟨"HindiVoice", "hi-IN"⟩] =
      some ⟨"HindiVoice", "hi-IN"⟩ :=
  selectPreferred_prefers_hindi ⟨"HindiVoice", "hi-IN"⟩ ⟨"EnglishVoice", "en-US"⟩
    [⟨"EnglishVoice", "en-US"⟩, ⟨"HindiVoice", "hi-IN"⟩] rfl rfl
    (by decide) (Or.inr rfl)

/-- C9: over a non-empty catalog with no previously chosen voice, a
persisted voice index overrides the heuristic choice exactly when it is
still in range; an out-of-range index leaves the heuristic
`selectPreferred`-or-first-catalog-entry result, which is always some
voice — never a failure, never an empty selection. -/
theorem saved_index_override (voices : List Voice) (i : Nat)
    (hne : voices ≠ []) :
    (i < voices.length → initVoices voices none (some i) = voices[i]?) ∧
    (voices.length ≤ i →
      initVoices voices none (some i) = initVoices voices none none ∧
      (initVoices voices none (some i)).isSome = true) := by
  have hempty : voices.isEmpty = false := by
    simpa [List.isEmpty_iff] using hne
  constructor
  · intro hlt
    rw [List.getElem?_eq_getElem hlt]
    simp [initVoices, hempty, List.getElem?_eq_getElem hlt]
  · intro hge
    have hnone : voices[i]? = none := List.getElem?_eq_none hge
    constructor
    · simp [initVoices, hempty, hnone]
    · simp only [initVoices, hempty, hnone]
      cases hsel : selectPreferred voices with
      | some v => simp [hsel]
      | none =>
        cases voices with
        | nil => exact absurd rfl hne
        | cons a as => simp [hsel]

/-- Witness for C9 at a one-voice catalog and the stale index 5. -/
theorem saved_index_override_witness :
    initVoices [⟨"A", "en-US"⟩] none (some 5) = initVoices [⟨"A", "en-US"⟩] none none ∧
    (initVoices [⟨"A", "en-US"⟩] none (some 5)).isSome = true :=
  (saved_index_override [⟨"A", "en-US"⟩] 5 (by decide)).2 (by decide)

/-- C8 counterexample: with the persisted rate `abc` — a malformed numeric
string — loading does not apply the 0.8 default: the resulting rate is
`NaN`, which differs from the default value. -/
theorem load_unparseable_not_default :
    (loadSavedSettings (some "abc") none none defaultSettings).rate = JNum.nan ∧
    JNum.nan ≠ defaultSettings.rate := by
  exact ⟨by decide, by decide⟩

/-- C8 as amended: loading never fails and keeps the current (default)
value only for missing or empty persisted fields; any non-empty persisted
string is handed to `parseFloat`, so valid numeric strings load their
parsed value while malformed ones load `NaN` instead of the default.  The
auto-read flag does read as false for anything but the literal string
`true`. -/
theorem load_settings_amended (cur : Settings) (s : String) (hs : s ≠ "") :
    loadSavedSettings none none none cur = cur ∧
    loadSavedSettings (some "") (some "") (some "") cur = cur ∧
    (loadSavedSettings (some s) none none cur).rate = parseFloatJs s ∧
    parseFloatJs "1.5" = JNum.val (3 / 2) ∧
    parseFloatJs "abc" = JNum.nan ∧
    loadAutoRead none = false ∧
    loadAutoRead (some "garbage") = false ∧
    loadAutoRead (some "true") = true := by
  refine ⟨rfl, rfl, ?_, ?_, by decide, by decide, by decide, by decide⟩
  · simp [loadSavedSettings, loadField, hs]
  · simp +decide [parseFloatJs, digitsToNat]
    norm_num

/-- Witness for the amended C8 at concrete store contents. -/
theorem load_settings_amended_witness :
    loadSavedSettings none none none defaultSettings = defaultSettings ∧
    loadSavedSettings (some "") (some "") (some "") defaultSettings = defaultSettings ∧
    (loadSavedSettings (some "abc") none none defaultSettings).rate =
      parseFloatJs "abc" ∧
    parseFloatJs "1.5" = JNum.val (3 / 2) ∧
    parseFloatJs "abc" = JNum.nan ∧
    loadAutoRead none = false ∧
    loadAutoRead (some "garbage") = false ∧
    loadAutoRead (some "true") = true :=
  load_settings_amended defaultSettings "abc" (by decide)

end VoiceApp
